import Mathlib

/-!
Shallow embedding of the `witness` lifecycle controller from
`internal/witness/manager.go` and `internal/witness/types.go` of the
gastown repository, together with theorems checking the specification's
claims about it.

Modelling conventions:
* The per-rig state file is a `FileState`: absent, unreadable, present but
  undecodable, or present with a decoded `Witness` record.
* The ambient effects (rig roster, process-liveness probe, wall clock,
  current pid, and whether a disk write succeeds) are gathered in an
  `Env` record passed explicitly.
* Go `int` fields become `Int`; timestamps become `Nat`.
* Each Go method becomes a function from `Env` and `FileState` to its
  result plus the resulting `FileState`.
-/

namespace Gastown

/-- `State` from types.go: the witness's running state. -/
inductive WState where
  | stopped
  | running
  | paused
deriving DecidableEq, Repr

/-- `WitnessStats` from types.go: cumulative witness statistics. -/
structure WitnessStats where
  totalChecks : Int
  totalNudges : Int
  totalEscalations : Int
  todayChecks : Int
  todayNudges : Int
deriving DecidableEq, Repr

/-- `Witness` from types.go: a rig's persisted monitoring record. -/
structure Witness where
  rigName : String
  state : WState
  pid : Int
  startedAt : Option Nat
  monitoredPolecats : List String
  lastCheckAt : Option Nat
  stats : WitnessStats
deriving DecidableEq, Repr

/-- The contents of the per-rig `witness.json` file. -/
inductive FileState where
  /-- The file does not exist (`os.IsNotExist`). -/
  | absent
  /-- The file cannot be read for another reason. -/
  | readErr
  /-- The file exists but `json.Unmarshal` fails. -/
  | invalid
  /-- The file exists and decodes to the record `w`. -/
  | good (w : Witness)
deriving DecidableEq, Repr

/-- The error taxonomy of the manager. -/
inductive Err where
  | notRunning
  | alreadyRunning
  | decodeError
  | ioError
deriving DecidableEq, Repr

/-- The ambient environment of one manager call: the rig's name and live
roster, the process-liveness probe, the clock, the calling process id,
and whether a disk write issued now would succeed. -/
structure Env where
  rigName : String
  polecats : List String
  alive : Int → Bool
  now : Nat
  myPid : Int
  saveOk : Bool

/-- The zero-valued record `loadState` synthesizes when the file is
absent: `&Witness{RigName: m.rig.Name, State: StateStopped}` with Go zero
values everywhere else. -/
def defaultWitness (rigName : String) : Witness :=
  { rigName := rigName
    state := WState.stopped
    pid := 0
    startedAt := none
    monitoredPolecats := []
    lastCheckAt := none
    stats :=
      { totalChecks := 0, totalNudges := 0, totalEscalations := 0
        todayChecks := 0, todayNudges := 0 } }

/-- `loadState` (manager.go lines 40-58): read the state file; an absent
file yields the default stopped record with no error; other read errors
and decode errors propagate. -/
def loadState (env : Env) (fs : FileState) : Except Err Witness :=
  match fs with
  | FileState.absent => Except.ok (defaultWitness env.rigName)
  | FileState.readErr => Except.error Err.ioError
  | FileState.invalid => Except.error Err.decodeError
  | FileState.good w => Except.ok w

/-- `saveState` (manager.go lines 61-73): persist the record, creating
directories as needed. A failed write (directory creation or the write
itself) reports an IO error and, in this model, leaves the file as it
was. -/
def saveState (env : Env) (w : Witness) (fs : FileState) :
    Except Err Unit × FileState :=
  if env.saveOk then (Except.ok (), FileState.good w)
  else (Except.error Err.ioError, fs)

/-- `Status` (manager.go lines 76-95): load the record; if it says
running with a positive pid but the process is gone, self-heal to
stopped/pid-0 and persist, discarding any save error; always overwrite
`monitoredPolecats` with the rig's current roster. -/
def Status (env : Env) (fs : FileState) : Except Err Witness × FileState :=
  match loadState env fs with
  | Except.error e => (Except.error e, fs)
  | Except.ok w =>
    let healed : Witness × FileState :=
      if w.state = WState.running ∧ 0 < w.pid ∧ env.alive w.pid = false then
        let w2 := { w with state := WState.stopped, pid := 0 }
        (w2, (saveState env w2 fs).2)
      else (w, fs)
    (Except.ok { healed.1 with monitoredPolecats := env.polecats }, healed.2)

/-- The outcome of a successful `Start`: either the call returned to the
caller (background mode), or control was handed to the blocking monitor
loop `run(w)` with the freshly persisted record `w` (foreground mode). -/
inductive StartRet where
  | returned
  | blocked (w : Witness)
deriving DecidableEq, Repr

/-- `Start` (manager.go lines 100-128): load; fail with
`ErrAlreadyRunning` when the record is running with a positive, live
pid; otherwise mark running with the current time and pid, refresh the
roster, persist; in foreground mode hand control to the monitor loop,
otherwise return at once. -/
def Start (env : Env) (foreground : Bool) (fs : FileState) :
    Except Err StartRet × FileState :=
  match loadState env fs with
  | Except.error e => (Except.error e, fs)
  | Except.ok w =>
    if w.state = WState.running ∧ 0 < w.pid ∧ env.alive w.pid = true then
      (Except.error Err.alreadyRunning, fs)
    else
      let w2 : Witness :=
        { w with
          state := WState.running
          startedAt := some env.now
          pid := env.myPid
          monitoredPolecats := env.polecats }
      match saveState env w2 fs with
      | (Except.error e, fs2) => (Except.error e, fs2)
      | (Except.ok _, fs2) =>
        if foreground then (Except.ok (StartRet.blocked w2), fs2)
        else (Except.ok StartRet.returned, fs2)

/-- `Stop` (manager.go lines 131-153): load; fail with `ErrNotRunning`
when the record is not running; otherwise (after a best-effort
termination signal to a recorded foreign pid, whose failure is ignored
and which does not touch the state file) persist stopped/pid-0. -/
def Stop (env : Env) (fs : FileState) : Except Err Unit × FileState :=
  match loadState env fs with
  | Except.error e => (Except.error e, fs)
  | Except.ok w =>
    if w.state = WState.running then
      let w2 := { w with state := WState.stopped, pid := 0 }
      saveState env w2 fs
    else (Except.error Err.notRunning, fs)

/-- `healthCheck` (manager.go lines 175-185): stamp `lastCheckAt` with
the current time, bump `totalChecks` and `todayChecks`, and persist,
returning the save's outcome alongside the updated in-memory record. -/
def healthCheck (env : Env) (w : Witness) (fs : FileState) :
    Witness × (Except Err Unit × FileState) :=
  let w2 : Witness :=
    { w with
      lastCheckAt := some env.now
      stats :=
        { w.stats with
          totalChecks := w.stats.totalChecks + 1
          todayChecks := w.stats.todayChecks + 1 } }
  (w2, saveState env w2 fs)

/-- `run` (manager.go lines 156-172), modelled over a finite prefix of
timer ticks of the otherwise unbounded loop: each tick performs a health
check and discards (merely prints) its error, then the loop continues
with the next tick. One `Env` per tick carries that tick's clock reading
and whether that tick's persist succeeds. -/
def runTicks (envs : List Env) (w : Witness) (fs : FileState) :
    Witness × FileState :=
  match envs with
  | [] => (w, fs)
  | e :: rest =>
    let r := healthCheck e w fs
    runTicks rest r.1 r.2.2

/-- The whole-system state for invariant reasoning: the state file plus
the monitor loop's in-memory record when a foreground run is active. -/
structure Sys where
  fs : FileState
  mem : Option Witness
deriving Repr

/-- One operation of the controller: a status, start, or stop
invocation, or one tick of the monitor loop. -/
inductive Op where
  | status
  | start (fg : Bool)
  | stop
  | tick
deriving DecidableEq, Repr

/-- Apply one controller operation to the whole-system state. A
successful foreground start installs the freshly persisted record as the
loop's in-memory record; a tick runs `healthCheck` on that record,
exactly as `run` does. -/
def stepOp (env : Env) (op : Op) (s : Sys) : Sys :=
  match op with
  | Op.status => { s with fs := (Status env s.fs).2 }
  | Op.start fg =>
    let r := Start env fg s.fs
    match r.1 with
    | Except.ok (StartRet.blocked w) => { fs := r.2, mem := some w }
    | _ => { s with fs := r.2 }
  | Op.stop => { s with fs := (Stop env s.fs).2 }
  | Op.tick =>
    match s.mem with
    | none => s
    | some w =>
      let r := healthCheck env w s.fs
      { fs := r.2.2, mem := some r.1 }

/-- Pointwise order on the five stats counters. -/
def statsLE (a b : WitnessStats) : Prop :=
  a.totalChecks ≤ b.totalChecks ∧
  a.totalNudges ≤ b.totalNudges ∧
  a.totalEscalations ≤ b.totalEscalations ∧
  a.todayChecks ≤ b.todayChecks ∧
  a.todayNudges ≤ b.todayNudges

instance (a b : WitnessStats) : Decidable (statsLE a b) := by
  unfold statsLE; infer_instance

/-- All five counters are non-negative. -/
def statsNonneg (a : WitnessStats) : Prop :=
  0 ≤ a.totalChecks ∧ 0 ≤ a.totalNudges ∧ 0 ≤ a.totalEscalations ∧
  0 ≤ a.todayChecks ∧ 0 ≤ a.todayNudges

instance (a : WitnessStats) : Decidable (statsNonneg a) := by
  unfold statsNonneg; infer_instance

/-- The stats recorded in the state file, when it holds a record. -/
def fileStats : FileState → Option WitnessStats
  | FileState.good w => some w.stats
  | _ => none

/-- System invariant: counters in the file and in the loop's in-memory
record are non-negative, and the in-memory record (which is only ever
saved, never re-read, by the loop) is at least as advanced as the file. -/
def sysInv (s : Sys) : Prop :=
  (∀ st, fileStats s.fs = some st → statsNonneg st) ∧
  (∀ w, s.mem = some w →
    statsNonneg w.stats ∧ ∀ st, fileStats s.fs = some st → statsLE st w.stats)

/-- Zeroed statistics, for concrete test records. -/
def cStatsZero : WitnessStats :=
  { totalChecks := 0, totalNudges := 0, totalEscalations := 0
    todayChecks := 0, todayNudges := 0 }

/-- A concrete environment in which no process is alive and writes
succeed. -/
def cEnvDead : Env :=
  { rigName := "alpha", polecats := ["nux", "slit"]
    alive := fun _ => false, now := 7, myPid := 41, saveOk := true }

/-- A concrete record claiming to run with pid 0. -/
def cW1 : Witness :=
  { rigName := "alpha", state := WState.running, pid := 0
    startedAt := none, monitoredPolecats := [], lastCheckAt := none
    stats := cStatsZero }

/-- A concrete record claiming to run with pid 5. -/
def cW5 : Witness :=
  { rigName := "alpha", state := WState.running, pid := 5
    startedAt := some 3, monitoredPolecats := ["old"], lastCheckAt := none
    stats := cStatsZero }

/-- A concrete environment in which exactly pid 5 is alive and writes
succeed. -/
def cEnvLive : Env :=
  { rigName := "alpha", polecats := ["nux", "slit"]
    alive := fun p => decide (p = 5), now := 9, myPid := 41, saveOk := true }

/-- A concrete environment in which no process is alive and writes
fail. -/
def cEnvDeadNoSave : Env :=
  { rigName := "alpha", polecats := ["nux", "slit"]
    alive := fun _ => false, now := 7, myPid := 41, saveOk := false }

/-- `processExists` (manager.go lines 188-196) as the source actually
computes it. `os.FindProcess` never fails on Unix, but `proc.Signal(nil)`
always returns the error `os: unsupported signal type`: a nil `os.Signal`
fails the `syscall.Signal` type assertion inside `Signal`, so the
zero-signal probe the comment on line 193 intends (`syscall.Signal(0)`)
is never sent. The probe therefore reports every pid, live or dead, as
not existing. `Env.alive` remains the interface oracle of the
ProcessProbe contract; this definition is what the shipped code plugs
into it. -/
def processExists (_pid : Int) : Bool := false

/-- A concrete environment whose liveness probe is the source's actual
`processExists`, with writes succeeding. -/
def cEnvProbe : Env :=
  { rigName := "alpha", polecats := ["nux", "slit"]
    alive := fun p => processExists p, now := 9, myPid := 41, saveOk := true }

/-- A concrete whole-system state: no file, no active loop. -/
def cSys0 : Sys := { fs := FileState.absent, mem := none }

/-- Claim C1 fails as stated: with a persisted record `state = Running,
pid = 0` and a probe under which pid 0 is not alive, `Status` does not
self-heal (the code additionally requires `pid > 0`): it returns the
record still `Running` and leaves the file untouched. -/
theorem c1_counterexample :
    cW1.state = WState.running ∧
    cEnvDead.alive cW1.pid = false ∧
    (Status cEnvDead (FileState.good cW1)).2 = FileState.good cW1 ∧
    (Status cEnvDead (FileState.good cW1)).1 =
      Except.ok { cW1 with monitoredPolecats := cEnvDead.polecats } ∧
    ({ cW1 with monitoredPolecats := cEnvDead.polecats } : Witness).state =
      WState.running := by
  refine ⟨rfl, rfl, ?_, ?_, rfl⟩ <;> rfl

/-- Claim C1 (amended: the recorded pid must also be positive, and the
persist succeeds): for every persisted record with `state = Running` and
`0 < pid` whose pid is not alive, `Status` rewrites the record to
`state = Stopped, pid = 0`, persists it before returning, and a
subsequent load reflects `Stopped`. -/
theorem c1_selfheal (env : Env) (w : Witness)
    (hs : w.state = WState.running) (hp : 0 < w.pid)
    (ha : env.alive w.pid = false) (hsave : env.saveOk = true) :
    Status env (FileState.good w) =
      (Except.ok { w with
                   state := WState.stopped, pid := 0,
                   monitoredPolecats := env.polecats },
       FileState.good { w with state := WState.stopped, pid := 0 }) ∧
    loadState env
        (FileState.good { w with state := WState.stopped, pid := 0 }) =
      Except.ok { w with state := WState.stopped, pid := 0 } ∧
    ({ w with state := WState.stopped, pid := 0 } : Witness).state =
      WState.stopped := by
  refine ⟨?_, rfl, rfl⟩
  simp [Status, loadState, saveState, hs, hp, ha, hsave]

/-- Witness for `c1_selfheal` at a concrete dead-pid record. -/
theorem c1_selfheal_witness :
    cW5.state = WState.running ∧ 0 < cW5.pid ∧
    cEnvDead.alive cW5.pid = false ∧ cEnvDead.saveOk = true ∧
    (Status cEnvDead (FileState.good cW5) =
      (Except.ok { cW5 with
                   state := WState.stopped, pid := 0,
                   monitoredPolecats := cEnvDead.polecats },
       FileState.good { cW5 with state := WState.stopped, pid := 0 }) ∧
     loadState cEnvDead
         (FileState.good { cW5 with state := WState.stopped, pid := 0 }) =
       Except.ok { cW5 with state := WState.stopped, pid := 0 } ∧
     ({ cW5 with state := WState.stopped, pid := 0 } : Witness).state =
       WState.stopped) :=
  ⟨rfl, by decide, rfl, rfl, c1_selfheal cEnvDead cW5 rfl (by decide) rfl rfl⟩

/-- Claim C4: when the persisted record's state is not `Running`
(`Stopped` or `Paused`), `Stop` returns `ErrNotRunning` and leaves the
state file untouched. -/
theorem c4_stop_not_running (env : Env) (w : Witness)
    (h : w.state ≠ WState.running) :
    Stop env (FileState.good w) =
      (Except.error Err.notRunning, FileState.good w) := by
  simp [Stop, loadState, h]

/-- Witness for `c4_stop_not_running` at a concrete stopped record. -/
theorem c4_witness :
    (defaultWitness "alpha").state ≠ WState.running ∧
    Stop cEnvDead (FileState.good (defaultWitness "alpha")) =
      (Except.error Err.notRunning,
       FileState.good (defaultWitness "alpha")) :=
  ⟨by decide, c4_stop_not_running cEnvDead (defaultWitness "alpha") (by decide)⟩

/-- Claim C5: with no state file, `loadState` returns the default record
(`rigName` from the rig, `Stopped`, pid 0, zeroed stats) with no error,
and `Status` returns that record (with `monitoredPolecats` recomputed
from the roster, per C6) while leaving the file absent: a pure read
creates nothing. -/
theorem c5_absent_default (env : Env) :
    loadState env FileState.absent =
      Except.ok (defaultWitness env.rigName) ∧
    (defaultWitness env.rigName).rigName = env.rigName ∧
    (defaultWitness env.rigName).state = WState.stopped ∧
    (defaultWitness env.rigName).pid = 0 ∧
    (defaultWitness env.rigName).stats = cStatsZero ∧
    Status env FileState.absent =
      (Except.ok
        { defaultWitness env.rigName with monitoredPolecats := env.polecats },
       FileState.absent) := by
  refine ⟨rfl, rfl, rfl, rfl, rfl, ?_⟩
  simp [Status, loadState, defaultWitness]

/-- Claim C10: when the self-heal's persist fails, `Status` still
returns the healed record (`Stopped`, pid 0) with no error — the save
failure is discarded, and the file keeps its stale contents. -/
theorem c10_heal_save_failure (env : Env) (w : Witness)
    (hs : w.state = WState.running) (hp : 0 < w.pid)
    (ha : env.alive w.pid = false) (hsave : env.saveOk = false) :
    Status env (FileState.good w) =
      (Except.ok { w with
                   state := WState.stopped, pid := 0,
                   monitoredPolecats := env.polecats },
       FileState.good w) := by
  simp [Status, loadState, saveState, hs, hp, ha, hsave]

/-- Witness for `c10_heal_save_failure` at a concrete record. -/
theorem c10_witness :
    cW5.state = WState.running ∧ 0 < cW5.pid ∧
    cEnvDeadNoSave.alive cW5.pid = false ∧ cEnvDeadNoSave.saveOk = false ∧
    Status cEnvDeadNoSave (FileState.good cW5) =
      (Except.ok { cW5 with
                   state := WState.stopped, pid := 0,
                   monitoredPolecats := cEnvDeadNoSave.polecats },
       FileState.good cW5) :=
  ⟨rfl, by decide, rfl, rfl,
    c10_heal_save_failure cEnvDeadNoSave cW5 rfl (by decide) rfl rfl⟩

/-- The record a successful `Start` builds and persists from the loaded
record `w`. -/
def startedRecord (env : Env) (w : Witness) : Witness :=
  { w with
    state := WState.running
    startedAt := some env.now
    pid := env.myPid
    monitoredPolecats := env.polecats }

/-- Claim C2: whenever the loaded record is not already running with a
positive live pid and the write succeeds, `Start` persists a record with
`state = Running`, `startedAt = now`, `pid` = the calling process id
(in particular in foreground mode), and `monitoredPolecats` refreshed
from the roster; with `foreground = false` the call returns ok
immediately after persisting, and with `foreground = true` it hands that
same record to the blocking monitor loop. -/
theorem c2_start_success (env : Env) (fg : Bool) (fs : FileState) (w : Witness)
    (hload : loadState env fs = Except.ok w)
    (hnr : ¬(w.state = WState.running ∧ 0 < w.pid ∧ env.alive w.pid = true))
    (hsave : env.saveOk = true) :
    (Start env fg fs).2 = FileState.good (startedRecord env w) ∧
    (startedRecord env w).state = WState.running ∧
    (startedRecord env w).startedAt = some env.now ∧
    (startedRecord env w).pid = env.myPid ∧
    (startedRecord env w).monitoredPolecats = env.polecats ∧
    (fg = false → (Start env fg fs).1 = Except.ok StartRet.returned) ∧
    (fg = true →
      (Start env fg fs).1 = Except.ok (StartRet.blocked (startedRecord env w))) := by
  have key :
      Start env fg fs =
        (if fg then Except.ok (StartRet.blocked (startedRecord env w))
         else Except.ok StartRet.returned,
         FileState.good (startedRecord env w)) := by
    unfold Start
    rw [hload]
    simp only [if_neg hnr]
    unfold saveState
    rw [hsave]
    cases fg <;> simp [startedRecord]
  rw [key]
  cases fg <;> simp [startedRecord]

/-- Witness for `c2_start_success`: starting in background mode with no
state file. -/
theorem c2_witness :
    loadState cEnvDead FileState.absent =
      Except.ok (defaultWitness cEnvDead.rigName) ∧
    ¬((defaultWitness cEnvDead.rigName).state = WState.running ∧
      0 < (defaultWitness cEnvDead.rigName).pid ∧
      cEnvDead.alive (defaultWitness cEnvDead.rigName).pid = true) ∧
    cEnvDead.saveOk = true ∧
    ((Start cEnvDead false FileState.absent).2 =
      FileState.good (startedRecord cEnvDead (defaultWitness cEnvDead.rigName)) ∧
    (startedRecord cEnvDead (defaultWitness cEnvDead.rigName)).state =
      WState.running ∧
    (startedRecord cEnvDead (defaultWitness cEnvDead.rigName)).startedAt =
      some cEnvDead.now ∧
    (startedRecord cEnvDead (defaultWitness cEnvDead.rigName)).pid =
      cEnvDead.myPid ∧
    (startedRecord cEnvDead (defaultWitness cEnvDead.rigName)).monitoredPolecats =
      cEnvDead.polecats ∧
    (false = false →
      (Start cEnvDead false FileState.absent).1 = Except.ok StartRet.returned) ∧
    (false = true →
      (Start cEnvDead false FileState.absent).1 =
        Except.ok (StartRet.blocked
          (startedRecord cEnvDead (defaultWitness cEnvDead.rigName))))) :=
  ⟨rfl, by decide, rfl,
    c2_start_success cEnvDead false FileState.absent
      (defaultWitness cEnvDead.rigName) rfl (by decide) rfl⟩

/-- Claim C3 (code bug): the probe the source ships reports every pid
dead — `proc.Signal(nil)` always fails, see `processExists` — so a
second `start()` while the recorded pid is genuinely alive never sees a
live pid: with the probe as compiled, `Start` on a `Running`/pid-5
record does not return `ErrAlreadyRunning` but overwrites the record,
replacing the persisted `startedAt`, contrary to the claim, to spec
sections 4.3 and 8, and to the stated intent of the comment on
manager.go line 193. -/
theorem c3_code_bug :
    (∀ pid : Int, processExists pid = false) ∧
    cW5.state = WState.running ∧ 0 < cW5.pid ∧
    Start cEnvProbe false (FileState.good cW5) =
      (Except.ok StartRet.returned,
       FileState.good (startedRecord cEnvProbe cW5)) ∧
    (startedRecord cEnvProbe cW5).startedAt ≠ cW5.startedAt :=
  ⟨fun _ => rfl, rfl, by decide, rfl, by decide⟩

/-- Claim C6: whatever `monitoredPolecats` list the file held, any
record `Status` returns carries the rig's current roster. -/
theorem c6_roster (env : Env) (fs : FileState) (w : Witness)
    (h : (Status env fs).1 = Except.ok w) :
    w.monitoredPolecats = env.polecats := by
  unfold Status at h
  cases hl : loadState env fs with
  | error e => rw [hl] at h; exact absurd h (by simp)
  | ok w0 =>
    rw [hl] at h
    simp only [Except.ok.injEq] at h
    rw [← h]

/-- Witness for `c6_roster`: the stale list `["old"]` in the file is
replaced by the roster. -/
theorem c6_witness :
    (Status cEnvLive (FileState.good cW5)).1 =
      Except.ok { cW5 with monitoredPolecats := cEnvLive.polecats } ∧
    ({ cW5 with monitoredPolecats := cEnvLive.polecats } : Witness).monitoredPolecats =
      cEnvLive.polecats :=
  ⟨rfl,
    c6_roster cEnvLive (FileState.good cW5)
      { cW5 with monitoredPolecats := cEnvLive.polecats } rfl⟩

/-- Claim C7: one health-check tick bumps `totalChecks` and
`todayChecks` by exactly 1, stamps `lastCheckAt` with a time not earlier
than any previous one (given a non-decreasing clock), persists the
updated record when the write succeeds, and changes no other field —
in particular `totalNudges`, `totalEscalations` and `todayNudges`. -/
theorem c7_health_check (env : Env) (w : Witness) (fs : FileState)
    (hsave : env.saveOk = true)
    (hclock : ∀ t, w.lastCheckAt = some t → t ≤ env.now) :
    (healthCheck env w fs).1.stats.totalChecks = w.stats.totalChecks + 1 ∧
    (healthCheck env w fs).1.stats.todayChecks = w.stats.todayChecks + 1 ∧
    (healthCheck env w fs).1.lastCheckAt = some env.now ∧
    (∀ t t2, w.lastCheckAt = some t →
      (healthCheck env w fs).1.lastCheckAt = some t2 → t ≤ t2) ∧
    (healthCheck env w fs).2 =
      (Except.ok (), FileState.good (healthCheck env w fs).1) ∧
    (healthCheck env w fs).1.rigName = w.rigName ∧
    (healthCheck env w fs).1.state = w.state ∧
    (healthCheck env w fs).1.pid = w.pid ∧
    (healthCheck env w fs).1.startedAt = w.startedAt ∧
    (healthCheck env w fs).1.monitoredPolecats = w.monitoredPolecats ∧
    (healthCheck env w fs).1.stats.totalNudges = w.stats.totalNudges ∧
    (healthCheck env w fs).1.stats.totalEscalations =
      w.stats.totalEscalations ∧
    (healthCheck env w fs).1.stats.todayNudges = w.stats.todayNudges := by
  refine ⟨rfl, rfl, rfl, ?_, ?_, rfl, rfl, rfl, rfl, rfl, rfl, rfl, rfl⟩
  · intro t t2 h1 h2
    simp only [healthCheck, Option.some.injEq] at h2
    rw [← h2]
    exact hclock t h1
  · simp [healthCheck, saveState, hsave]

/-- Witness for `c7_health_check` at a concrete record with no previous
check. -/
theorem c7_witness :
    cEnvDead.saveOk = true ∧
    (∀ t, cW5.lastCheckAt = some t → t ≤ cEnvDead.now) ∧
    ((healthCheck cEnvDead cW5 FileState.absent).1.stats.totalChecks =
      cW5.stats.totalChecks + 1 ∧
    (healthCheck cEnvDead cW5 FileState.absent).1.stats.todayChecks =
      cW5.stats.todayChecks + 1 ∧
    (healthCheck cEnvDead cW5 FileState.absent).1.lastCheckAt =
      some cEnvDead.now ∧
    (∀ t t2, cW5.lastCheckAt = some t →
      (healthCheck cEnvDead cW5 FileState.absent).1.lastCheckAt = some t2 →
      t ≤ t2) ∧
    (healthCheck cEnvDead cW5 FileState.absent).2 =
      (Except.ok (),
       FileState.good (healthCheck cEnvDead cW5 FileState.absent).1) ∧
    (healthCheck cEnvDead cW5 FileState.absent).1.rigName = cW5.rigName ∧
    (healthCheck cEnvDead cW5 FileState.absent).1.state = cW5.state ∧
    (healthCheck cEnvDead cW5 FileState.absent).1.pid = cW5.pid ∧
    (healthCheck cEnvDead cW5 FileState.absent).1.startedAt =
      cW5.startedAt ∧
    (healthCheck cEnvDead cW5 FileState.absent).1.monitoredPolecats =
      cW5.monitoredPolecats ∧
    (healthCheck cEnvDead cW5 FileState.absent).1.stats.totalNudges =
      cW5.stats.totalNudges ∧
    (healthCheck cEnvDead cW5 FileState.absent).1.stats.totalEscalations =
      cW5.stats.totalEscalations ∧
    (healthCheck cEnvDead cW5 FileState.absent).1.stats.todayNudges =
      cW5.stats.todayNudges) :=
  ⟨rfl, fun _ h => Option.noConfusion h,
    c7_health_check cEnvDead cW5 FileState.absent rfl
      (fun _ h => Option.noConfusion h)⟩

/-- Claim C9: the monitor loop performs every scheduled health check no
matter how each tick's persist fares — in particular a tick whose save
fails does not stop the loop: after any finite prefix of ticks, each
tick has contributed exactly one check to the in-memory counters. -/
theorem c9_loop_survives (envs : List Env) (w : Witness) (fs : FileState) :
    (runTicks envs w fs).1.stats.totalChecks =
      w.stats.totalChecks + envs.length ∧
    (runTicks envs w fs).1.stats.todayChecks =
      w.stats.todayChecks + envs.length := by
  induction envs generalizing w fs with
  | nil => simp [runTicks]
  | cons e rest ih =>
    simp only [runTicks]
    obtain ⟨h1, h2⟩ := ih (healthCheck e w fs).1 (healthCheck e w fs).2.2
    rw [h1, h2]
    simp only [healthCheck, List.length_cons]
    constructor <;> push_cast <;> ring

theorem statsLE_refl (a : WitnessStats) : statsLE a a :=
  ⟨le_refl _, le_refl _, le_refl _, le_refl _, le_refl _⟩

theorem statsLE_trans {a b c : WitnessStats}
    (h1 : statsLE a b) (h2 : statsLE b c) : statsLE a c := by
  unfold statsLE at *
  obtain ⟨x1, x2, x3, x4, x5⟩ := h1
  obtain ⟨y1, y2, y3, y4, y5⟩ := h2
  exact ⟨le_trans x1 y1, le_trans x2 y2, le_trans x3 y3,
    le_trans x4 y4, le_trans x5 y5⟩

theorem statsNonneg_default (r : String) :
    statsNonneg (defaultWitness r).stats := by
  unfold statsNonneg defaultWitness
  norm_num

theorem statsLE_default_of_nonneg (r : String) (a : WitnessStats)
    (h : statsNonneg a) : statsLE (defaultWitness r).stats a := h

/-- `Status` never changes which statistics the file records. -/
theorem status_fileStats (env : Env) (fs : FileState) :
    fileStats (Status env fs).2 = fileStats fs := by
  unfold Status loadState
  cases fs with
  | absent => simp [defaultWitness, fileStats]
  | readErr => rfl
  | invalid => rfl
  | good w =>
    by_cases hc : w.state = WState.running ∧ 0 < w.pid ∧ env.alive w.pid = false
    · simp only [if_pos hc, saveState]
      cases hs : env.saveOk <;> simp [fileStats]
    · simp [if_neg hc, fileStats]

/-- `Stop` never changes which statistics the file records. -/
theorem stop_fileStats (env : Env) (fs : FileState) :
    fileStats (Stop env fs).2 = fileStats fs := by
  unfold Stop loadState
  cases fs with
  | absent => simp [defaultWitness, fileStats]
  | readErr => rfl
  | invalid => rfl
  | good w =>
    by_cases hc : w.state = WState.running
    · simp only [if_pos hc, saveState]
      cases hs : env.saveOk <;> simp [fileStats]
    · simp [if_neg hc, fileStats]

/-- A step that keeps the file's statistics and the in-memory record
cannot decrease counters and preserves the invariant. -/
theorem sys_mono_of_fs_eq (s : Sys) (fs2 : FileState) (m2 : Option Witness)
    (hfs : fileStats fs2 = fileStats s.fs) (hm : m2 = s.mem)
    (hinv : sysInv s) :
    (∀ st st2, fileStats s.fs = some st → fileStats fs2 = some st2 →
      statsLE st st2) ∧
    sysInv (Sys.mk fs2 m2) := by
  unfold sysInv at *
  obtain ⟨h1, h2⟩ := hinv
  subst hm
  refine ⟨?_, ?_, ?_⟩
  · intro st st2 ha hb
    rw [hfs, ha, Option.some.injEq] at hb
    rw [← hb]
    exact statsLE_refl st
  · intro st hst
    exact h1 st (by rw [← hfs]; exact hst)
  · intro w hw
    obtain ⟨hn, hle⟩ := h2 w hw
    exact ⟨hn, fun st hst => hle st (by rw [← hfs]; exact hst)⟩

theorem healthCheck_statsLE (env : Env) (w : Witness) (fs : FileState) :
    statsLE w.stats (healthCheck env w fs).1.stats := by
  unfold statsLE
  refine ⟨?_, ?_, ?_, ?_, ?_⟩ <;> · simp only [healthCheck]; omega

theorem healthCheck_statsNonneg (env : Env) (w : Witness) (fs : FileState)
    (h : statsNonneg w.stats) : statsNonneg (healthCheck env w fs).1.stats := by
  unfold statsNonneg at *
  obtain ⟨x1, x2, x3, x4, x5⟩ := h
  refine ⟨?_, ?_, ?_, ?_, ?_⟩ <;> · simp only [healthCheck]; omega

/-- Claim C8: across every controller operation — `Status`, `Start`,
`Stop`, and each monitor-loop tick — no stats counter recorded in the
state file ever decreases, and the system invariant (file and in-memory
counters non-negative, the loop's in-memory record at least as advanced
as the file) is preserved, so the guarantee holds along any run. -/
theorem c8_counters_monotone (env : Env) (op : Op) (s : Sys)
    (hinv : sysInv s) :
    (∀ st st2, fileStats s.fs = some st →
      fileStats (stepOp env op s).fs = some st2 → statsLE st st2) ∧
    sysInv (stepOp env op s) := by
  obtain ⟨fs, mem⟩ := s
  cases op with
  | status =>
    exact sys_mono_of_fs_eq ⟨fs, mem⟩ _ _ (status_fileStats env fs) rfl hinv
  | stop =>
    exact sys_mono_of_fs_eq ⟨fs, mem⟩ _ _ (stop_fileStats env fs) rfl hinv
  | tick =>
    cases mem with
    | none => exact sys_mono_of_fs_eq ⟨fs, none⟩ fs none rfl rfl hinv
    | some w =>
      have hred : stepOp env Op.tick ⟨fs, some w⟩ =
          ⟨(healthCheck env w fs).2.2, some (healthCheck env w fs).1⟩ := rfl
      unfold sysInv at hinv ⊢
      obtain ⟨h1, h2⟩ := hinv
      obtain ⟨hwn, hwle⟩ := h2 w rfl
      have hstep := healthCheck_statsLE env w fs
      have hstepnn := healthCheck_statsNonneg env w fs hwn
      rw [hred]
      cases hs : env.saveOk with
      | false =>
        have hfs2 : (healthCheck env w fs).2.2 = fs := by
          simp [healthCheck, saveState, hs]
        rw [hfs2]
        refine ⟨?_, h1, ?_⟩
        · intro st st2 ha hb
          rw [ha, Option.some.injEq] at hb
          rw [← hb]
          exact statsLE_refl st
        · intro w2 hw2
          rw [Option.some.injEq] at hw2
          rw [← hw2]
          exact ⟨hstepnn, fun st hst => statsLE_trans (hwle st hst) hstep⟩
      | true =>
        have hfs2 : (healthCheck env w fs).2.2 =
            FileState.good (healthCheck env w fs).1 := by
          simp [healthCheck, saveState, hs]
        rw [hfs2]
        refine ⟨?_, ?_, ?_⟩
        · intro st st2 ha hb
          simp only [fileStats, Option.some.injEq] at hb
          rw [← hb]
          exact statsLE_trans (hwle st ha) hstep
        · intro st hst
          simp only [fileStats, Option.some.injEq] at hst
          rw [← hst]
          exact hstepnn
        · intro w2 hw2
          rw [Option.some.injEq] at hw2
          rw [← hw2]
          refine ⟨hstepnn, fun st hst => ?_⟩
          simp only [fileStats, Option.some.injEq] at hst
          rw [← hst]
          exact statsLE_refl _
  | start fg =>
    cases fs with
    | readErr =>
      exact sys_mono_of_fs_eq ⟨FileState.readErr, mem⟩ _ _ rfl rfl hinv
    | invalid =>
      exact sys_mono_of_fs_eq ⟨FileState.invalid, mem⟩ _ _ rfl rfl hinv
    | absent =>
      have hcond : ¬((defaultWitness env.rigName).state = WState.running ∧
          0 < (defaultWitness env.rigName).pid ∧
          env.alive (defaultWitness env.rigName).pid = true) := by
        simp [defaultWitness]
      cases hs : env.saveOk with
      | false =>
        have hred : stepOp env (Op.start fg) ⟨FileState.absent, mem⟩ =
            ⟨FileState.absent, mem⟩ := by
          simp [stepOp, Start, loadState, if_neg hcond, saveState, hs]
        rw [hred]
        exact sys_mono_of_fs_eq ⟨FileState.absent, mem⟩ _ _ rfl rfl hinv
      | true =>
        unfold sysInv at hinv ⊢
        obtain ⟨h1, h2⟩ := hinv
        cases fg with
        | false =>
          have hred : stepOp env (Op.start false) ⟨FileState.absent, mem⟩ =
              ⟨FileState.good (startedRecord env (defaultWitness env.rigName)),
               mem⟩ := by
            simp [stepOp, Start, loadState, if_neg hcond, saveState, hs,
              startedRecord]
          rw [hred]
          refine ⟨?_, ?_, ?_⟩
          · intro st st2 ha
            exact absurd ha (by simp [fileStats])
          · intro st hst
            simp only [fileStats, Option.some.injEq] at hst
            rw [← hst]
            exact statsNonneg_default env.rigName
          · intro w2 hw2
            obtain ⟨hn, _⟩ := h2 w2 hw2
            refine ⟨hn, fun st hst => ?_⟩
            simp only [fileStats, Option.some.injEq] at hst
            rw [← hst]
            exact statsLE_default_of_nonneg env.rigName w2.stats hn
        | true =>
          have hred : stepOp env (Op.start true) ⟨FileState.absent, mem⟩ =
              ⟨FileState.good (startedRecord env (defaultWitness env.rigName)),
               some (startedRecord env (defaultWitness env.rigName))⟩ := by
            simp [stepOp, Start, loadState, if_neg hcond, saveState, hs,
              startedRecord]
          rw [hred]
          refine ⟨?_, ?_, ?_⟩
          · intro st st2 ha
            exact absurd ha (by simp [fileStats])
          · intro st hst
            simp only [fileStats, Option.some.injEq] at hst
            rw [← hst]
            exact statsNonneg_default env.rigName
          · intro w2 hw2
            rw [Option.some.injEq] at hw2
            rw [← hw2]
            refine ⟨statsNonneg_default env.rigName, fun st hst => ?_⟩
            simp only [fileStats, Option.some.injEq] at hst
            rw [← hst]
            exact statsLE_refl _
    | good w =>
      by_cases hc : w.state = WState.running ∧ 0 < w.pid ∧
          env.alive w.pid = true
      · have hred : stepOp env (Op.start fg) ⟨FileState.good w, mem⟩ =
            ⟨FileState.good w, mem⟩ := by
          simp [stepOp, Start, loadState, if_pos hc]
        rw [hred]
        exact sys_mono_of_fs_eq ⟨FileState.good w, mem⟩ _ _ rfl rfl hinv
      · cases hs : env.saveOk with
        | false =>
          have hred : stepOp env (Op.start fg) ⟨FileState.good w, mem⟩ =
              ⟨FileState.good w, mem⟩ := by
            simp [stepOp, Start, loadState, if_neg hc, saveState, hs]
          rw [hred]
          exact sys_mono_of_fs_eq ⟨FileState.good w, mem⟩ _ _ rfl rfl hinv
        | true =>
          unfold sysInv at hinv ⊢
          obtain ⟨h1, h2⟩ := hinv
          have hgs : statsNonneg w.stats := h1 w.stats rfl
          cases fg with
          | false =>
            have hred : stepOp env (Op.start false) ⟨FileState.good w, mem⟩ =
                ⟨FileState.good (startedRecord env w), mem⟩ := by
              simp [stepOp, Start, loadState, if_neg hc, saveState, hs,
                startedRecord]
            rw [hred]
            refine ⟨?_, ?_, ?_⟩
            · intro st st2 ha hb
              simp only [fileStats, Option.some.injEq] at ha hb
              rw [← ha, ← hb]
              exact statsLE_refl _
            · intro st hst
              simp only [fileStats, Option.some.injEq] at hst
              rw [← hst]
              exact hgs
            · intro w2 hw2
              obtain ⟨hn, hle⟩ := h2 w2 hw2
              refine ⟨hn, fun st hst => ?_⟩
              simp only [fileStats, Option.some.injEq] at hst
              rw [← hst]
              exact hle w.stats rfl
          | true =>
            have hred : stepOp env (Op.start true) ⟨FileState.good w, mem⟩ =
                ⟨FileState.good (startedRecord env w),
                 some (startedRecord env w)⟩ := by
              simp [stepOp, Start, loadState, if_neg hc, saveState, hs,
                startedRecord]
            rw [hred]
            refine ⟨?_, ?_, ?_⟩
            · intro st st2 ha hb
              simp only [fileStats, Option.some.injEq] at ha hb
              rw [← ha, ← hb]
              exact statsLE_refl _
            · intro st hst
              simp only [fileStats, Option.some.injEq] at hst
              rw [← hst]
              exact hgs
            · intro w2 hw2
              rw [Option.some.injEq] at hw2
              rw [← hw2]
              refine ⟨hgs, fun st hst => ?_⟩
              simp only [fileStats, Option.some.injEq] at hst
              rw [← hst]
              exact statsLE_refl _

/-- Witness for `c8_counters_monotone`: a background start on a fresh
system. -/
theorem c8_witness :
    sysInv cSys0 ∧
    ((∀ st st2, fileStats cSys0.fs = some st →
      fileStats (stepOp cEnvDead (Op.start false) cSys0).fs = some st2 →
      statsLE st st2) ∧
    sysInv (stepOp cEnvDead (Op.start false) cSys0)) :=
  ⟨⟨fun _ h => Option.noConfusion h, fun _ h => Option.noConfusion h⟩,
    c8_counters_monotone cEnvDead (Op.start false) cSys0
      ⟨fun _ h => Option.noConfusion h, fun _ h => Option.noConfusion h⟩⟩

end Gastown
